import Mathlib

set_option maxHeartbeats 1000000

/-!
Shallow embedding of `server.js` (certificate manager backed by a remote
FTP store).  Per-request handlers read the JSON manifest at
`/certificates/manifest.json`, mutate the decoded list in memory, and write
remote files back.  Remote I/O is embedded as values: a download attempt is
a `DownloadOutcome` (either an FTP error carrying the numeric reply code,
or the file's contents at the level of their `JSON.parse` result), and the
writes/removals a handler performs are a `List FtpAction` trace in program
order.  `ParsedContent.valid m` stands for downloaded bytes that
`JSON.parse` decodes to the record array `m`; `ParsedContent.invalid`
stands for bytes on which `JSON.parse` throws.  `FileData.manifestJson m`
stands for the bytes `JSON.stringify(m, null, 2)`.
-/

/-- A certificate record as stored in the manifest (`newCert` in
`app.post('/api/upload')`). -/
structure Cert where
  certNumber : String
  issueDate : String
  issuedToName : String
  imageUrl : String
  deriving DecidableEq, Repr

/-- `const CERT_BASE_PATH = "/certificates"`. -/
def CERT_BASE_PATH : String := "/certificates"

/-- ``const MANIFEST_PATH = `${CERT_BASE_PATH}/manifest.json` ``. -/
def MANIFEST_PATH : String := CERT_BASE_PATH ++ "/manifest.json"

/-- ``const IMAGES_PATH = `${CERT_BASE_PATH}/images` ``. -/
def IMAGES_PATH : String := CERT_BASE_PATH ++ "/images"

/-- Scanner state of Node's `path.posix.extname`: `startDot`, `startPart`,
`end`, `matchedSlash`, `preDotState` (with `-1` sentinels kept as `Int`). -/
structure ExtScan where
  startDot : Int
  startPart : Nat
  endIdx : Int
  matchedSlash : Bool
  preDotState : Int
  deriving Repr, DecidableEq

/-- One iteration of the right-to-left scan loop of Node's
`path.posix.extname`, at character `c` of index `i`; the `Bool` is the
`break` taken when a path separator ends the basename. -/
def extnameStep (c : Char) (i : Nat) (s : ExtScan) : ExtScan × Bool :=
  if c = '/' then
    if s.matchedSlash then (s, false)
    else ({ s with startPart := i + 1 }, true)
  else
    let s1 := if s.endIdx = -1 then { s with matchedSlash := false, endIdx := (i : Int) + 1 } else s
    if c = '.' then
      if s1.startDot = -1 then ({ s1 with startDot := (i : Int) }, false)
      else if s1.preDotState ≠ 1 then ({ s1 with preDotState := 1 }, false)
      else (s1, false)
    else
      if s1.startDot ≠ -1 then ({ s1 with preDotState := -1 }, false)
      else (s1, false)

/-- Runs `extnameStep` over the characters in reverse order (`rcs` is the
reversed string, `i` the index of its head in the original string). -/
def extnameGo : List Char → Nat → ExtScan → ExtScan
  | [], _, s => s
  | c :: rest, i, s =>
    match extnameStep c i s with
    | (s1, true) => s1
    | (s1, false) => extnameGo rest (i - 1) s1

/-- Node's `path.posix.extname`: the extension of the last path component,
`""` when the component has no dot, starts with its only dot, or is `".."`;
the final guard and `slice(startDot, end)` follow the Node source. -/
def extname (p : String) : String :=
  let cs := p.data
  let s := extnameGo cs.reverse (cs.length - 1) ⟨-1, 0, -1, true, 0⟩
  if s.startDot = -1 ∨ s.endIdx = -1 ∨ s.preDotState = 0 ∨
      (s.preDotState = 1 ∧ s.startDot = s.endIdx - 1 ∧ s.startDot = (s.startPart : Int) + 1) then
    ""
  else
    String.mk ((cs.drop s.startDot.toNat).take (s.endIdx.toNat - s.startDot.toNat))

/-- Node's `path.posix.basename` (no extension argument): the last path
component, with trailing separators stripped. -/
def basename (p : String) : String :=
  let r := p.data.reverse.dropWhile (fun c => c = '/')
  String.mk ((r.takeWhile (fun c => c ≠ '/')).reverse)

/-- Contents of a downloaded manifest file, abstracted to the outcome of
`JSON.parse`: `valid m` when the bytes decode to the record array `m`,
`invalid` when `JSON.parse` throws a `SyntaxError` (whose message is kept). -/
inductive ParsedContent where
  | invalid (msg : String)
  | valid (m : List Cert)
  deriving DecidableEq, Repr

/-- Result of `client.downloadTo(readable, MANIFEST_PATH)` as observed by
`getManifest`: an FTP error with its numeric reply code (550 = file not
found), or the downloaded contents. -/
inductive DownloadOutcome where
  | err (code : Option Nat) (msg : String)
  | ok (content : ParsedContent)
  deriving DecidableEq, Repr

/-- An error escaping `getManifest`: the re-thrown `JSON.parse`
`SyntaxError` (the manifest exists but is corrupt), or a re-thrown FTP
error other than code 550. -/
inductive ManifestError where
  | parseError (msg : String)
  | ftpError (code : Option Nat) (msg : String)
  deriving DecidableEq, Repr

/-- `getManifest(client)`: download and `JSON.parse` the manifest; in the
catch block, an error with `code === 550` yields `[]` (file absent is the
bootstrap state) and every other error is re-thrown. -/
def getManifest : DownloadOutcome → Except ManifestError (List Cert)
  | .ok (.valid m) => .ok m
  | .ok (.invalid msg) => .error (.parseError msg)
  | .err code msg => if code = some 550 then .ok [] else .error (.ftpError code msg)

/-- `true` exactly on the download outcome produced by an absent remote
manifest file (FTP reply code 550). -/
def fileAbsent : DownloadOutcome → Bool
  | .err code _ => code = some 550
  | .ok _ => false

/-- The `message` carried by an error when a handler's catch block turns it
into a 500 response. -/
def errorMessage : ManifestError → String
  | .parseError msg => msg
  | .ftpError _ msg => msg

/-- Response of `app.post('/api/certificates')`: on success the manifest
array is sent with status 200, otherwise status 500 with the error
message. -/
inductive ListResponse where
  | json (status : Nat) (body : List Cert)
  | err (status : Nat) (msg : String)
  deriving DecidableEq, Repr

/-- `app.post('/api/certificates')` after the FTP session is open. -/
def certificatesHandler (dl : DownloadOutcome) : ListResponse :=
  match getManifest dl with
  | .ok m => .json 200 m
  | .error e => .err 500 (errorMessage e)

/-- The multipart fields of `app.post('/api/upload')`:
`req.file.originalname`, `req.file.buffer`, and the body fields
`certNumber`, `issueDate`, `issuedToName`. -/
structure UploadRequest where
  originalname : String
  fileBuffer : List Nat
  certNumber : String
  issueDate : String
  issuedToName : String
  deriving DecidableEq, Repr

/-- `path.extname(req.file.originalname) || '.jpg'` (the empty string is
the only falsy value `path.extname` returns). -/
def imageExtensionOf (r : UploadRequest) : String :=
  let e := extname r.originalname
  if e = "" then ".jpg" else e

/-- ``const imagePath = `${IMAGES_PATH}/${certNumber}${imageExtension}` ``. -/
def imagePathFor (certNumber ext : String) : String :=
  IMAGES_PATH ++ "/" ++ certNumber ++ ext

/-- ``const imageUrl = `/api/image/${certNumber}${imageExtension}` ``. -/
def imageUrlFor (certNumber ext : String) : String :=
  "/api/image/" ++ certNumber ++ ext

/-- `const newCert = { certNumber, issueDate, issuedToName, imageUrl }`. -/
def newCertOf (r : UploadRequest) : Cert :=
  { certNumber := r.certNumber, issueDate := r.issueDate, issuedToName := r.issuedToName,
    imageUrl := imageUrlFor r.certNumber (imageExtensionOf r) }

/-- The manifest written by upload:
`manifest.filter(c => c.certNumber !== certNumber)` followed by
`updatedManifest.unshift(newCert)`. -/
def uploadManifestUpdate (manifest : List Cert) (r : UploadRequest) : List Cert :=
  newCertOf r :: manifest.filter (fun c => c.certNumber ≠ r.certNumber)

/-- Payload of a remote write: raw image bytes (`req.file.buffer`) or the
serialized manifest (`JSON.stringify(m, null, 2)`). -/
inductive FileData where
  | bytes (b : List Nat)
  | manifestJson (m : List Cert)
  deriving DecidableEq, Repr

/-- A remote mutation performed through the FTP client: `uploadFrom`
(write/overwrite a file), `remove` (delete a file), or `rename` (which the
`basic-ftp` client offers but `server.js` never calls). -/
inductive FtpAction where
  | uploadFrom (path : String) (payload : FileData)
  | remove (path : String)
  | rename (fromPath toPath : String)
  deriving DecidableEq, Repr

/-- The remote writes of `app.post('/api/upload')` after `getManifest`
succeeds, in program order: first
`client.uploadFrom(Readable.from(req.file.buffer), imagePath)`, then
`client.uploadFrom(Readable.from(JSON.stringify(updatedManifest, null, 2)), MANIFEST_PATH)`. -/
def uploadActions (manifest : List Cert) (r : UploadRequest) : List FtpAction :=
  [FtpAction.uploadFrom (imagePathFor r.certNumber (imageExtensionOf r)) (.bytes r.fileBuffer),
    FtpAction.uploadFrom MANIFEST_PATH (.manifestJson (uploadManifestUpdate manifest r))]

/-- An HTTP status/message pair as produced by `res.status(s).json({message})`. -/
structure Response where
  status : Nat
  message : String
  deriving DecidableEq, Repr

/-- `app.post('/api/upload')` after the session is open, returning the
trace of remote writes and the response. -/
def uploadHandler (dl : DownloadOutcome) (r : UploadRequest) : List FtpAction × Response :=
  match getManifest dl with
  | .error e => ([], ⟨500, errorMessage e⟩)
  | .ok manifest => (uploadActions manifest r, ⟨201, "Certificate uploaded successfully."⟩)

/-- The `certNumber` column of a manifest. -/
def keys (m : List Cert) : List String := m.map Cert.certNumber

/-- The manifest written by delete:
`manifest.filter(c => c.certNumber !== certNumber)`. -/
def deleteManifestUpdate (manifest : List Cert) (certNumber : String) : List Cert :=
  manifest.filter (fun c => c.certNumber ≠ certNumber)

/-- `app.post('/api/delete')` after `getManifest` succeeds: find the record,
filter it out, 404 when the filter removed nothing, otherwise write the
updated manifest and remove `IMAGES_PATH + '/' + path.basename(certToDelete.imageUrl)`. -/
def deleteCore (manifest : List Cert) (certNumber : String) : List FtpAction × Response :=
  let certToDelete := manifest.find? (fun c => c.certNumber = certNumber)
  let updatedManifest := deleteManifestUpdate manifest certNumber
  if manifest.length = updatedManifest.length then
    ([], ⟨404, "Certificate not found in manifest."⟩)
  else
    let removeActions :=
      match certToDelete with
      | some cert => [FtpAction.remove (IMAGES_PATH ++ "/" ++ basename cert.imageUrl)]
      | none => []
    (FtpAction.uploadFrom MANIFEST_PATH (.manifestJson updatedManifest) :: removeActions,
      ⟨200, "Certificate deleted successfully."⟩)

/-- `app.post('/api/delete')` after the session is open, including the
`getManifest` call. -/
def deleteHandler (dl : DownloadOutcome) (certNumber : String) : List FtpAction × Response :=
  match getManifest dl with
  | .error e => ([], ⟨500, errorMessage e⟩)
  | .ok manifest => deleteCore manifest certNumber

/-- The `secure` values the `basic-ftp` `access` call distinguishes:
`false` (plain FTP), `'implicit'` (implicit FTPS on port 990), `true`
(explicit FTPS over the control connection). -/
inductive SecureMode where
  | plainFtp
  | implicitTls
  | explicitTls
  deriving DecidableEq, Repr

/-- The caller-supplied FTP credentials (`config` in `getFtpClient`); the
requested security mode arrives as the string field `secure`. -/
structure FtpConfig where
  host : String
  port : Nat
  user : String
  password : String
  secure : String
  deriving DecidableEq, Repr

/-- The options `getFtpClient` passes to `client.access`. -/
structure AccessOptions where
  host : String
  port : Nat
  user : String
  password : String
  secure : SecureMode
  deriving DecidableEq, Repr

/-- `getFtpClient`'s construction of `accessOptions`: the ternary
`config.secure === 'implicit' ? 'implicit' : false` and the subsequent
if/else both set `secure` to `'implicit'` when `config.secure === 'implicit'`
and to `false` (plain FTP) for every other value. -/
def buildAccessOptions (config : FtpConfig) : AccessOptions :=
  { host := config.host, port := config.port, user := config.user,
    password := config.password,
    secure := if config.secure = "implicit" then .implicitTls else .plainFtp }

/-- `true` on an action that writes the manifest file. -/
def writesManifest : FtpAction → Bool
  | .uploadFrom p _ => p = MANIFEST_PATH
  | _ => false

/-- `true` on the action that writes `r`'s image bytes to `r`'s image path. -/
def writesImageOf (r : UploadRequest) : FtpAction → Bool
  | .uploadFrom p d =>
      p = imagePathFor r.certNumber (imageExtensionOf r) ∧ d = .bytes r.fileBuffer
  | _ => false

/-- Concrete record used to instantiate theorems: the spec's scenario
certificate. -/
def certA1 : Cert := ⟨"A1", "2024-01-01", "Jane", "/api/image/A1.jpg"⟩

/-- A second concrete record with a distinct key. -/
def certB2 : Cert := ⟨"B2", "2023-05-05", "Bob", "/api/image/B2.png"⟩

/-- The spec's scenario upload: `{certNumber:"A1", issueDate:"2024-01-01",
issuedToName:"Jane"}` with image `a.jpg`. -/
def reqA1 : UploadRequest := ⟨"a.jpg", [7], "A1", "2024-01-01", "Jane"⟩

/-- The spec's second scenario upload: same key, new `issueDate`. -/
def reqA2 : UploadRequest := ⟨"a.jpg", [9], "A1", "2024-02-02", "Jane"⟩

/-- An upload whose original filename has no extension. -/
def reqNoExt : UploadRequest := ⟨"scan", [1], "A1", "2024-01-01", "Jane"⟩

/-- A credentials object requesting explicit TLS. -/
def cfgExplicit : FtpConfig := ⟨"ftp.example.com", 21, "admin", "pw", "explicit"⟩

lemma data_append (a b : String) : (a ++ b).data = a.data ++ b.data := rfl

lemma imagePath_data (c e : String) :
    (imagePathFor c e).data = "/certificates/images/".data ++ (c.data ++ e.data) := by
  have h : (IMAGES_PATH ++ "/").data = "/certificates/images/".data := rfl
  calc (imagePathFor c e).data
      = ((IMAGES_PATH ++ "/").data ++ c.data) ++ e.data := by
        simp only [imagePathFor, data_append]
    _ = "/certificates/images/".data ++ (c.data ++ e.data) := by
        rw [h, List.append_assoc]

lemma imagePath_ne_manifestPath (c e : String) : imagePathFor c e ≠ MANIFEST_PATH := by
  intro h
  have h14 : (imagePathFor c e).data[14]? = MANIFEST_PATH.data[14]? := by rw [h]
  rw [imagePath_data, List.getElem?_append_left (by decide)] at h14
  exact absurd h14 (by decide)

lemma imagePathFor_inj_ext {c e1 e2 : String} (h : imagePathFor c e1 = imagePathFor c e2) :
    e1 = e2 := by
  have hd := congrArg String.data h
  rw [imagePath_data, imagePath_data] at hd
  exact String.ext (List.append_cancel_left (List.append_cancel_left hd))

lemma keys_cons (c : Cert) (m : List Cert) : keys (c :: m) = c.certNumber :: keys m := rfl

lemma mem_keys {m : List Cert} {k : String} : k ∈ keys m ↔ ∃ c ∈ m, c.certNumber = k := by
  simp [keys]

lemma filter_eq_self_of_not_mem {m : List Cert} {k : String} (h : k ∉ keys m) :
    m.filter (fun c => c.certNumber ≠ k) = m := by
  rw [List.filter_eq_self]
  intro c hc
  simp only [ne_eq, decide_not, Bool.not_eq_true', decide_eq_false_iff_not]
  intro hck
  exact h (mem_keys.mpr ⟨c, hc, hck⟩)

lemma filter_erase_spec (m : List Cert) (k : String) (hnd : (keys m).Nodup)
    (hmem : k ∈ keys m) :
    m.filter (fun c => c.certNumber ≠ k) = m.eraseP (fun c => c.certNumber = k) ∧
    (m.filter (fun c => c.certNumber ≠ k)).length + 1 = m.length := by
  induction m with
  | nil => simp [keys] at hmem
  | cons c rest ih =>
    rw [keys_cons, List.nodup_cons] at hnd
    by_cases hc : c.certNumber = k
    · have hrest : k ∉ keys rest := hc ▸ hnd.1
      have hfr : rest.filter (fun c => c.certNumber ≠ k) = rest :=
        filter_eq_self_of_not_mem hrest
      refine ⟨?_, ?_⟩
      · rw [List.filter_cons, List.eraseP_cons, if_neg (by simp [hc]),
          show decide (c.certNumber = k) = true by simp [hc]]
        simpa using hfr
      · rw [List.filter_cons, if_neg (by simp [hc]), hfr, List.length_cons]
    · have hmem' : k ∈ keys rest := by
        rw [keys_cons] at hmem
        rcases List.mem_cons.mp hmem with h | h
        · exact absurd h.symm hc
        · exact h
      obtain ⟨h1, h2⟩ := ih hnd.2 hmem'
      refine ⟨?_, ?_⟩
      · rw [List.filter_cons, List.eraseP_cons, if_pos (by simp [hc]),
          show decide (c.certNumber = k) = false by simp [hc]]
        simpa using h1
      · rw [List.filter_cons, if_pos (by simp [hc]), List.length_cons, List.length_cons]
        omega

lemma keys_filter_sublist (m : List Cert) (p : Cert → Bool) :
    (keys (m.filter p)).Sublist (keys m) :=
  List.Sublist.map Cert.certNumber (List.filter_sublist m)

lemma nodup_keys_filter {m : List Cert} (p : Cert → Bool) (h : (keys m).Nodup) :
    (keys (m.filter p)).Nodup :=
  List.Nodup.sublist (keys_filter_sublist m p) h

lemma key_not_mem_keys_filter (m : List Cert) (k : String) :
    k ∉ keys (m.filter (fun c => c.certNumber ≠ k)) := by
  intro hmem
  obtain ⟨c, hc, hck⟩ := mem_keys.mp hmem
  rw [List.mem_filter] at hc
  have h2 := hc.2
  simp only [ne_eq, decide_not, Bool.not_eq_true', decide_eq_false_iff_not] at h2
  exact h2 hck

/-- C1: For every prior manifest `M` and uploaded record with key
`certNumber`, the manifest written by upload equals the new record
prepended to `M` with every record of that key removed; uploading an
unused `certNumber` adds exactly one record placed first, and uploading a
present `certNumber` (in a manifest satisfying the key-uniqueness
invariant) replaces the existing record, moves it to the front, and keeps
the length unchanged. -/
theorem upload_postcondition (m : List Cert) (r : UploadRequest) :
    uploadManifestUpdate m r
        = newCertOf r :: m.filter (fun c => c.certNumber ≠ r.certNumber) ∧
    (r.certNumber ∉ keys m →
      uploadManifestUpdate m r = newCertOf r :: m ∧
      (uploadManifestUpdate m r).length = m.length + 1 ∧
      (uploadManifestUpdate m r).head? = some (newCertOf r)) ∧
    ((keys m).Nodup → r.certNumber ∈ keys m →
      (uploadManifestUpdate m r).length = m.length ∧
      (uploadManifestUpdate m r).head? = some (newCertOf r) ∧
      (uploadManifestUpdate m r).tail = m.eraseP (fun c => c.certNumber = r.certNumber)) := by
  refine ⟨rfl, ?_, ?_⟩
  · intro hnot
    have hfr := filter_eq_self_of_not_mem hnot
    exact ⟨by rw [uploadManifestUpdate, hfr], by rw [uploadManifestUpdate, hfr, List.length_cons],
      rfl⟩
  · intro hnd hmem
    obtain ⟨h1, h2⟩ := filter_erase_spec m r.certNumber hnd hmem
    refine ⟨?_, rfl, ?_⟩
    · rw [uploadManifestUpdate, List.length_cons, h2]
    · rw [uploadManifestUpdate, List.tail_cons, h1]

/-- C1 witness: uploading the unused key `A1` onto `[certB2]` yields a
2-element list headed by the new record; re-uploading key `A1` onto the
2-element manifest keeps the length at 2. -/
theorem upload_postcondition_witness :
    (uploadManifestUpdate [certB2] reqA1).length = 1 + 1 ∧
    (uploadManifestUpdate [certB2, certA1] reqA2).length = 2 ∧
    (uploadManifestUpdate [certB2, certA1] reqA2).head? = some (newCertOf reqA2) := by
  refine ⟨?_, ?_, ?_⟩
  · exact ((upload_postcondition [certB2] reqA1).2.1 (by decide)).2.1
  · exact ((upload_postcondition [certB2, certA1] reqA2).2.2 (by decide) (by decide)).1
  · exact ((upload_postcondition [certB2, certA1] reqA2).2.2 (by decide) (by decide)).2.1

/-- C2: In every manifest satisfying the key-uniqueness invariant that
contains the target `certNumber`, delete writes exactly the manifest with
that one record erased (no other record added, removed or modified), the
length decreases by one, and the handler answers 200. -/
theorem delete_present (m : List Cert) (k : String)
    (hnd : (keys m).Nodup) (hmem : k ∈ keys m) :
    deleteManifestUpdate m k = m.eraseP (fun c => c.certNumber = k) ∧
    (deleteManifestUpdate m k).length + 1 = m.length ∧
    (deleteCore m k).2 = ⟨200, "Certificate deleted successfully."⟩ ∧
    (deleteCore m k).1.head? =
      some (.uploadFrom MANIFEST_PATH (.manifestJson (deleteManifestUpdate m k))) := by
  obtain ⟨h1, h2⟩ := filter_erase_spec m k hnd hmem
  have hne : ¬ m.length = (deleteManifestUpdate m k).length := by
    rw [deleteManifestUpdate]
    omega
  refine ⟨h1, h2, ?_, ?_⟩
  · rw [deleteCore, if_neg hne]
  · rw [deleteCore, if_neg hne]
    rfl

/-- C2 witness: deleting `A1` from the 2-element manifest `[certB2, certA1]`
leaves one record and answers 200. -/
theorem delete_present_witness :
    (deleteManifestUpdate [certB2, certA1] "A1").length + 1 = 2 ∧
    (deleteCore [certB2, certA1] "A1").2 = ⟨200, "Certificate deleted successfully."⟩ := by
  refine ⟨?_, ?_⟩
  · exact (delete_present [certB2, certA1] "A1" (by decide) (by decide)).2.1
  · exact (delete_present [certB2, certA1] "A1" (by decide) (by decide)).2.2.1

/-- C4: Any manifest whose `certNumber` values are pairwise distinct keeps
that property across the manifest written by upload and the manifest
written by delete. -/
theorem uniqueness_invariant (m : List Cert) (r : UploadRequest) (k : String)
    (hnd : (keys m).Nodup) :
    (keys (uploadManifestUpdate m r)).Nodup ∧ (keys (deleteManifestUpdate m k)).Nodup := by
  refine ⟨?_, nodup_keys_filter _ hnd⟩
  rw [uploadManifestUpdate, keys_cons, List.nodup_cons]
  exact ⟨by
    have := key_not_mem_keys_filter m r.certNumber
    simpa [newCertOf] using this, nodup_keys_filter _ hnd⟩

/-- C4 witness: the invariant is preserved at the concrete 2-element
manifest for the scenario upload and for deleting key `B2`. -/
theorem uniqueness_invariant_witness :
    (keys (uploadManifestUpdate [certB2, certA1] reqA2)).Nodup ∧
    (keys (deleteManifestUpdate [certB2, certA1] "B2")).Nodup :=
  uniqueness_invariant [certB2, certA1] reqA2 "B2" (by decide)

/-- C3 counterexample: a remote manifest file that exists and parses to the
empty array also makes the read return the empty sequence, so "returns the
empty sequence exactly when the remote file is absent" fails in the
only-if direction. -/
theorem manifest_read_empty_counterexample :
    getManifest (.ok (.valid [])) = .ok ([] : List Cert) ∧
    fileAbsent (.ok (.valid [])) = false :=
  ⟨rfl, rfl⟩

/-- C3 amended: an absent remote file (FTP code 550) yields the empty
sequence and a 200 listing (but a present file parsing to the empty array
yields the empty sequence as well); a present file whose contents fail to
parse makes the read fail with the re-thrown parse error (the
ManifestCorruptError of the spec); any other transport error propagates
unchanged; a parseable file yields its records. -/
theorem manifest_read_classification (code : Option Nat) (msg : String) (m : List Cert)
    (hcode : code ≠ some 550) :
    getManifest (.err (some 550) msg) = .ok [] ∧
    certificatesHandler (.err (some 550) msg) = .json 200 [] ∧
    getManifest (.ok (.invalid msg)) = .error (.parseError msg) ∧
    getManifest (.err code msg) = .error (.ftpError code msg) ∧
    getManifest (.ok (.valid m)) = .ok m := by
  refine ⟨rfl, rfl, rfl, ?_, rfl⟩
  simp only [getManifest, if_neg hcode]

/-- C3 witness: the classification at FTP code 425 (a non-550 transport
error) and the scenario manifest. -/
theorem manifest_read_classification_witness :
    getManifest (.err (some 550) "550 no such file") = .ok [] ∧
    getManifest (.err (some 425) "425 cannot open data connection")
      = .error (.ftpError (some 425) "425 cannot open data connection") :=
  ⟨(manifest_read_classification (some 425) "550 no such file" [certA1] (by decide)).1,
    (manifest_read_classification (some 425) "425 cannot open data connection" [certA1]
      (by decide)).2.2.2.1⟩

/-- C5 counterexample: uploading with an original filename that has no
extension (`"scan"`) stores imageUrl `/api/image/A1.jpg` via the `|| '.jpg'`
fallback, not `/api/image/A1` as "imageUrl = /api/image/<certNumber><ext>
with <ext> the extension of the original filename" would require. -/
theorem upload_imageUrl_counterexample :
    (newCertOf reqNoExt).imageUrl = "/api/image/A1.jpg" ∧
    extname reqNoExt.originalname = "" ∧
    (newCertOf reqNoExt).imageUrl
      ≠ "/api/image/" ++ reqNoExt.certNumber ++ extname reqNoExt.originalname :=
  ⟨by decide, by decide, by decide⟩

/-- C5 amended: after an upload the listed manifest starts with the uploaded
record verbatim (all fields), whose imageUrl is
`/api/image/<certNumber><ext>` where `<ext>` is the extension of the
original filename, or `.jpg` when that filename has no extension; the
spec's concrete scenario and its re-upload follow. -/
theorem upload_list_round_trip (m : List Cert) (r : UploadRequest) :
    certificatesHandler (.ok (.valid (uploadManifestUpdate m r)))
      = .json 200 (uploadManifestUpdate m r) ∧
    (uploadManifestUpdate m r).head? = some (newCertOf r) ∧
    (newCertOf r).certNumber = r.certNumber ∧
    (newCertOf r).issueDate = r.issueDate ∧
    (newCertOf r).issuedToName = r.issuedToName ∧
    (newCertOf r).imageUrl = "/api/image/" ++ r.certNumber ++
      (if extname r.originalname = "" then ".jpg" else extname r.originalname) ∧
    certificatesHandler (.ok (.valid (uploadManifestUpdate [] reqA1)))
      = .json 200 [certA1] ∧
    uploadManifestUpdate [certA1] reqA2
      = [⟨"A1", "2024-02-02", "Jane", "/api/image/A1.jpg"⟩] :=
  ⟨rfl, rfl, rfl, rfl, rfl, rfl, by decide, by decide⟩

/-- C6: Deleting a `certNumber` absent from the manifest performs no remote
write and no image removal (empty action trace, hence the manifest is
untouched) and answers 404. -/
theorem delete_not_found (m : List Cert) (k : String) (hmem : k ∉ keys m) :
    deleteCore m k = ([], ⟨404, "Certificate not found in manifest."⟩) := by
  have hfr : deleteManifestUpdate m k = m := filter_eq_self_of_not_mem hmem
  rw [deleteCore, if_pos (by rw [hfr])]

/-- C6 witness: deleting the unused key `ZZ` from `[certA1]`. -/
theorem delete_not_found_witness :
    deleteCore [certA1] "ZZ" = ([], ⟨404, "Certificate not found in manifest."⟩) :=
  delete_not_found [certA1] "ZZ" (by decide)

/-- C7 counterexample: with the manifest file absent (FTP code 550), delete
answers the very same 404 "Certificate not found in manifest." produced
when the manifest exists but lacks the record — not a distinct
NotFoundError. -/
theorem delete_absent_manifest_counterexample :
    deleteHandler (.err (some 550) "550 no such file") "A1"
      = ([], ⟨404, "Certificate not found in manifest."⟩) ∧
    deleteHandler (.ok (.valid [certB2])) "A1"
      = ([], ⟨404, "Certificate not found in manifest."⟩) :=
  ⟨by decide, by decide⟩

/-- C7 amended: when the manifest file is absent, `getManifest` reclassifies
the 550 error as the empty manifest, so delete proceeds exactly as on an
empty manifest and reports the record-not-found 404; no distinct
NotFoundError exists for the absent-manifest case. -/
theorem delete_absent_manifest (msg k : String) :
    deleteHandler (.err (some 550) msg) k = deleteCore [] k ∧
    deleteCore [] k = ([], ⟨404, "Certificate not found in manifest."⟩) :=
  ⟨rfl, rfl⟩

/-- C8: Upload writes the image bytes strictly before the updated manifest:
the image write is the first action, the manifest write the second, and
every prefix of the trace (every crash point) that contains a manifest
write already contains the image write. -/
theorem upload_image_before_manifest (m : List Cert) (r : UploadRequest) :
    (uploadActions m r).head? =
      some (.uploadFrom (imagePathFor r.certNumber (imageExtensionOf r)) (.bytes r.fileBuffer)) ∧
    (uploadActions m r)[1]? =
      some (.uploadFrom MANIFEST_PATH (.manifestJson (uploadManifestUpdate m r))) ∧
    (∀ tr rest, tr ++ rest = uploadActions m r →
      (∃ a ∈ tr, writesManifest a = true) →
      ∃ a ∈ tr, writesImageOf r a = true) := by
  refine ⟨rfl, rfl, ?_⟩
  intro tr rest htr hman
  cases tr with
  | nil =>
    obtain ⟨a, ha, _⟩ := hman
    exact absurd ha (List.not_mem_nil a)
  | cons a tr' =>
    have ha : a = .uploadFrom (imagePathFor r.certNumber (imageExtensionOf r))
        (.bytes r.fileBuffer) := by
      have hh := congrArg List.head? htr
      simpa [uploadActions] using hh
    refine ⟨a, List.mem_cons_self a tr', ?_⟩
    rw [ha]
    simp [writesImageOf]

/-- C8 witness: the full trace of the scenario upload contains the image
write. -/
theorem upload_image_before_manifest_witness :
    ∃ a ∈ uploadActions [] reqA1, writesImageOf reqA1 a = true :=
  (upload_image_before_manifest [] reqA1).2.2 (uploadActions [] reqA1) [] rfl
    ⟨.uploadFrom MANIFEST_PATH (.manifestJson (uploadManifestUpdate [] reqA1)),
      by decide, by decide⟩

/-- C9 counterexample: a credentials object requesting `'explicit'` TLS is
given a plain-FTP session (`secure: false`), not an explicit-TLS one. -/
theorem explicit_tls_counterexample :
    cfgExplicit.secure = "explicit" ∧
    (buildAccessOptions cfgExplicit).secure = SecureMode.plainFtp ∧
    (buildAccessOptions cfgExplicit).secure ≠ SecureMode.explicitTls :=
  ⟨rfl, rfl, by decide⟩

/-- C9 amended: session acquisition copies host, port, user and password
from the caller's credentials and maps the security mode `'implicit'` to
implicit TLS and every other requested mode (including `'explicit'`) to
plain FTP; no credentials object yields an explicit-TLS session. -/
theorem access_secure_mapping (config : FtpConfig) (hs : config.secure ≠ "implicit") :
    (buildAccessOptions config).host = config.host ∧
    (buildAccessOptions config).port = config.port ∧
    (buildAccessOptions config).user = config.user ∧
    (buildAccessOptions config).password = config.password ∧
    (buildAccessOptions config).secure = SecureMode.plainFtp ∧
    (buildAccessOptions
        ⟨config.host, config.port, config.user, config.password, "implicit"⟩).secure
      = SecureMode.implicitTls ∧
    (buildAccessOptions config).secure ≠ SecureMode.explicitTls := by
  refine ⟨rfl, rfl, rfl, rfl, ?_, by simp [buildAccessOptions], ?_⟩
  · simp [buildAccessOptions, hs]
  · simp only [buildAccessOptions]
    split
    · exact fun h => SecureMode.noConfusion h
    · exact fun h => SecureMode.noConfusion h

/-- C9 witness: the mapping at the explicit-TLS credentials object. -/
theorem access_secure_mapping_witness :
    (buildAccessOptions cfgExplicit).secure = SecureMode.plainFtp :=
  (access_secure_mapping cfgExplicit (by decide)).2.2.2.2.1

/-- C10: Upload's only remote mutations are writes (never a removal or
rename) to exactly the image path derived from the uploaded certNumber and
extension and the manifest path; thus a previously stored image of the
same certNumber under a different extension sits at a path upload never
touches and is left in place. -/
theorem upload_frame (m : List Cert) (r : UploadRequest) :
    (∀ a ∈ uploadActions m r, ∃ p d, a = .uploadFrom p d ∧
      (p = imagePathFor r.certNumber (imageExtensionOf r) ∨ p = MANIFEST_PATH)) ∧
    (∀ ext, ext ≠ imageExtensionOf r →
      ∀ a ∈ uploadActions m r, ∀ d, a ≠ .uploadFrom (imagePathFor r.certNumber ext) d) := by
  constructor
  · intro a ha
    simp only [uploadActions, List.mem_cons, List.not_mem_nil, or_false] at ha
    rcases ha with ha | ha
    · exact ⟨_, _, ha, Or.inl rfl⟩
    · exact ⟨_, _, ha, Or.inr rfl⟩
  · intro ext hext a ha d heq
    simp only [uploadActions, List.mem_cons, List.not_mem_nil, or_false] at ha
    rcases ha with ha | ha
    · rw [ha] at heq
      injection heq with hp hd
      exact hext (imagePathFor_inj_ext hp).symm
    · rw [ha] at heq
      injection heq with hp hd
      exact imagePath_ne_manifestPath r.certNumber ext hp.symm

/-- C10 witness: the scenario upload's manifest write does not touch the
path `/certificates/images/A1.png` where an older `.png` image of the same
certNumber would live. -/
theorem upload_frame_witness :
    FtpAction.uploadFrom MANIFEST_PATH (.manifestJson (uploadManifestUpdate [] reqA1))
      ≠ FtpAction.uploadFrom (imagePathFor "A1" ".png") (.bytes [1]) :=
  (upload_frame [] reqA1).2 ".png" (by decide)
    (.uploadFrom MANIFEST_PATH (.manifestJson (uploadManifestUpdate [] reqA1))) (by decide)
    (.bytes [1])

